import Mathlib

/-!
Verification development for the bugSignal listener scheduling and delivery
engine.  The definitions below are a shallow embedding of the Python sources:

* `listener.py` — `CronSchedule.next_t`, `FileSystemListener`
  (`__init__`/`inherit`/`check`) and `SQLListener` (`inherit`/`check`);
* `service.py` — `BugSignalService.__actualize` and
  `BugSignalService.__check_listener` together with the job-queue state they
  manipulate.

Modelling conventions:

* `datetime` values are abstract instants, embedded as `Int`; only their
  ordering and `max` are relevant to the embedded code.
* Python `None`-able / raising operations return `Option` / `Except`.
* Python dictionaries (`FileSystemListener._state`, the service's
  `__listeners` map) are association lists in insertion order; assignment
  updates the value in place, new keys are appended, `pop` removes the key.
* Python sets of file names (`__folder_content` results) are duplicate-free
  lists; set difference is `List.filter` by non-membership.
* Filesystem contents are a map `String → FSEntry`; `pathlib` paths are the
  strings themselves (absolute; `item.absolute()` is the identity here), and
  the result of `FileSystemListener.__filesystem_items` / the iteration order
  of the Python set `{*self.__filesystem_items(), *self._state.keys()}` is
  passed explicitly as a `List String` (Python set iteration order is
  unspecified, so theorems quantify over it and counterexamples exhibit one
  realizable order).
* The croniter object inside `CronSchedule` is a strictly increasing sequence
  of occurrence instants `occ : Nat → Int` plus the index of the occurrence
  most recently returned by `get_next`; `get_current` reads `occ idx` and
  `get_next` moves to `occ (idx+1)`.
-/

/-! ## Association-list helpers (Python `dict` operations) -/

/-- Python `d[k]` read (no default): first binding of `k`. -/
def alookup {α : Type} [BEq α] {β : Type} (l : List (α × β)) (k : α) : Option β :=
  (l.find? (fun kv => kv.1 == k)).map (fun kv => kv.2)

/-- Python `d[k] = v`: replace the value in place if the key is present,
otherwise append the new binding (dict insertion order). -/
def setKey {α : Type} [BEq α] {β : Type} (l : List (α × β)) (k : α) (v : β) :
    List (α × β) :=
  if l.any (fun kv => kv.1 == k) then
    l.map (fun kv => if kv.1 == k then (k, v) else kv)
  else
    l ++ [(k, v)]

/-- Python `d.pop(k)`: `none` models the `KeyError` raised on a missing key. -/
def popKey {α : Type} [BEq α] {β : Type} (l : List (α × β)) (k : α) :
    Option (List (α × β)) :=
  if l.any (fun kv => kv.1 == k) then some (l.eraseP (fun kv => kv.1 == k))
  else none

/-! ## `listener.py` — `CronSchedule` -/

/-- The state of `CronSchedule`: the croniter occurrence sequence and the index
of the occurrence most recently produced by `get_next` (croniter's `cur`,
read back by `get_current`).  Faithful inputs have `occ` strictly monotone. -/
structure CronState where
  occ : Nat → Int
  idx : Nat

/-- `CronSchedule.next_t` (listener.py lines 59-67): read the stored occurrence
(`get_current`); it is expired when `≤ now`; if expired, `get_next` advances to
the immediately following occurrence and returns it, otherwise the stored
occurrence is returned unchanged.  Returns the `(expired, when)` pair together
with the updated schedule state. -/
def cron_next_t (c : CronState) (now : Int) : (Bool × Int) × CronState :=
  if c.occ c.idx ≤ now then
    ((true, c.occ (c.idx + 1)), { c with idx := c.idx + 1 })
  else
    ((false, c.occ c.idx), c)

/-! ## `listener.py` — `FileSystemListener` -/

/-- One filesystem object: a file with a modification instant, a directory
with its recursive file-name content (`__folder_content` result), or nothing
at that path. -/
inductive FSEntry
  | file (mtime : Int)
  | dir (content : List String)
  | absent
deriving DecidableEq

/-- One value of `FileSystemListener._state`: `noneV` is Python `None` (the
defaultdict default / `__default` of a non-existent path), `fileT` a stored
file modification instant, `dirC` a stored directory content snapshot. -/
inductive ItemState
  | noneV
  | fileT (mtime : Int)
  | dirC (content : List String)
deriving DecidableEq

/-- Checkpoint of a `FileSystemListener`: the `_state` dict and the `updated`
timestamp inherited from `BaseListener`. -/
structure FSState where
  state : List (String × ItemState)
  updated : Int
deriving DecidableEq

/-- `FileSystemListener.__default` (listener.py lines 127-131). -/
def fsDefault (fs : String → FSEntry) (p : String) : ItemState :=
  match fs p with
  | .file m => .fileT m
  | .dir c => .dirC c
  | .absent => .noneV

/-- The checkpoint produced by `FileSystemListener.__init__` (listener.py
lines 104-111): `updated = now`, then every filesystem item is recorded with
its `__default` value.  `items` is the `__filesystem_items()` result. -/
def fsInit (fs : String → FSEntry) (items : List String) (now : Int) : FSState :=
  { state := items.foldl (fun st p => setKey st p (fsDefault fs p)) [],
    updated := now }

/-- `FileSystemListener.inherit` (listener.py lines 133-138): for every key of
the fresh instance also present in the other instance, copy the other's value;
then copy `updated`. -/
def fsInherit (self other : FSState) : FSState :=
  { state := self.state.map (fun kv =>
      match alookup other.state kv.1 with
      | some v => (kv.1, v)
      | none => kv),
    updated := other.updated }

/-- The directory-diff message built at listener.py lines 167-171. -/
def dirMessage (p : String) (nAdded nRemoved : Nat) : String :=
  "[" ++ p ++ "]\n"
    ++ (if nAdded ≠ 0 then "created " ++ toString nAdded ++ " file(s);\n" else "")
    ++ (if nRemoved ≠ 0 then "removed " ++ toString nRemoved ++ " file(s);\n" else "")

/-- The item loop of `FileSystemListener.check` (listener.py lines 144-172),
threading the `_state` dict and the accumulated messages.  An `Except.error`
result is a raised exception (`KeyError` from `pop` on a missing key, or the
`AssertionError` of the `Invalid state` assert); the returned dict is the
state at the moment the exception propagates, keeping every mutation made for
earlier items.  `updated0` is the pre-call `self.updated` read by the
file-modification comparison. -/
def fsCheckLoop (fs : String → FSEntry) (updated0 : Int) :
    List String → List (String × ItemState) → List String →
    Except Unit (List String) × List (String × ItemState)
  | [], st, msgs => (.ok msgs, st)
  | p :: rest, st, msgs =>
    if fs p = FSEntry.absent then
      -- item was removed: message, then `self._state.pop(item)`
      match popKey st p with
      | none => (.error (), st)
      | some st1 => fsCheckLoop fs updated0 rest st1 (msgs ++ ["Removed: " ++ p])
    else
      -- the defaultdict read `self._state[item]` inserts `None` for a new key
      let st0 := if (alookup st p).isSome then st else st ++ [(p, ItemState.noneV)]
      match (alookup st0 p).getD ItemState.noneV with
      | .noneV =>
        -- item was created
        fsCheckLoop fs updated0 rest (setKey st0 p (fsDefault fs p))
          (msgs ++ ["Created: " ++ p])
      | prev =>
        match fs p with
        | .file m =>
          -- item is a file: record the mtime, report when newer than `updated`
          let st1 := setKey st0 p (.fileT m)
          let msgs1 := if updated0 < m then msgs ++ ["File modified: " ++ p] else msgs
          fsCheckLoop fs updated0 rest st1 msgs1
        | .dir content =>
          -- item is a folder: the stored state must be a content snapshot
          match prev with
          | .dirC oldC =>
            let st1 := setKey st0 p (.dirC content)
            let added := content.filter (fun f => !(oldC.contains f))
            let removed := oldC.filter (fun f => !(content.contains f))
            if added.isEmpty && removed.isEmpty then
              fsCheckLoop fs updated0 rest st1 msgs
            else
              fsCheckLoop fs updated0 rest st1
                (msgs ++ [dirMessage p added.length removed.length])
          | _ => (.error (), st0)   -- `assert isinstance(_state, set)` fails
        | .absent => (.error (), st0)  -- unreachable: guarded by the exists test

/-- `FileSystemListener.check` (listener.py lines 140-174): capture
`_updated = now`, run the item loop, and only on normal completion set
`self.updated = _updated`; when the loop raises, `updated` keeps its pre-call
value while `_state` keeps the mutations already made.  `items` is the
iteration order of `{*self.__filesystem_items(), *self._state.keys()}`. -/
def fsCheck (fs : String → FSEntry) (now : Int) (items : List String)
    (l : FSState) : Except Unit (List String) × FSState :=
  match fsCheckLoop fs l.updated items l.state [] with
  | (.ok msgs, st1) => (.ok msgs, { state := st1, updated := now })
  | (.error e, st1) => (.error e, { state := st1, updated := l.updated })

/-! ## `listener.py` — `SQLListener` -/

/-- Checkpoint of an `SQLListener`: the `updated` timestamp. -/
structure SQLState where
  updated : Int
deriving DecidableEq

/-- `SQLListener.inherit` (listener.py lines 213-215). -/
def sqlInherit (_self other : SQLState) : SQLState :=
  { updated := other.updated }

/-- The per-row message format of listener.py line 222; `strftime` of the
abstract instant is its numeral. -/
def sqlFormat (row : Int × String) : String :=
  "[" ++ toString row.1 ++ "]\n" ++ row.2

/-- Python `max(row[0] for row in rows)` over a non-empty row list
(listener.py line 226); the `[]` case is never reached by `sqlCheck`. -/
def maxTs : List (Int × String) → Int
  | [] => 0
  | r :: rest => rest.foldl (fun m x => max m x.1) r.1

/-- `SQLListener.check` (listener.py lines 217-227).  `rowsRes` is the result
of executing the query at the current checkpoint (`Except.error` when the SQL
query raises); a row is `(message timestamp, message text)`.  On success:
non-continual listeners resynchronize `updated` to the wall-clock instant
captured at the start of the call, continual listeners advance it to the
maximum row timestamp when at least one row was returned and keep it
otherwise.  On error nothing is mutated. -/
def sqlCheck (continual : Bool) (rowsRes : Except Unit (List (Int × String)))
    (now : Int) (st : SQLState) : Except Unit (List String) × SQLState :=
  match rowsRes with
  | .error e => (.error e, st)
  | .ok rows =>
    let content := rows.map sqlFormat
    if !continual then (.ok content, { updated := now })
    else if !rows.isEmpty then (.ok content, { updated := maxTs rows })
    else (.ok content, st)

/-! ## `service.py` — job queue, `__actualize`, `__check_listener`

Modelled from the spec: the job-name constants `JobName.ACTUALIZER`,
`JobName.LISTENER`, `JobName.CHECKER` imported by service.py live in a
revision of model.py that is not under src/; per spec §2/§3 the three job
kinds (actualizer / listener-check / one-off force-check) are distinct tags,
so `JobName` is a three-constructor enumeration.  Likewise the job queue
(python-telegram-bot) is the external "Job Scheduler" collaborator: a bag of
pending one-shot jobs where `run_once` adds a job, `get_jobs_by_name` filters
by name, `schedule_removal` removes, and a fired one-shot job is no longer
pending while its callback runs. -/

/-- Modelled from the spec: the three job kinds of spec §2/§3, standing for
the `JobName` constants missing from the model.py revision under src/. -/
inductive JobName
  | actualizer
  | listener
  | checker
deriving DecidableEq

/-- The value bound to `when=` at the `run_once` call sites of service.py:
either the `(expired, when)` pair produced by a `CronSchedule.next_t` property
read, or a plain number (`retryInterval`, or `0` for immediate checks).  The
code tests this value for Python truthiness: a tuple is always truthy, a
number is truthy iff non-zero. -/
inductive NextT
  | cron (p : Bool × Int)
  | interval (n : Int)
deriving DecidableEq

/-- Python truthiness of a `when=` value. -/
def NextT.truthy : NextT → Bool
  | .cron _ => true
  | .interval n => n != 0

/-- A pending job: its name, its `JobData` listener reference (`none` for the
actualizer job), and its due payload. -/
structure Job where
  name : JobName
  listenerId : Option Nat
  due : NextT
deriving DecidableEq

/-- The runtime listener kinds produced by `ListenerFactory`
(listener.py lines 33-48). -/
inductive LKind
  | fs
  | sql
deriving DecidableEq

/-- One row of `db.listeners(active_only=True)` (a `listener` table row,
`listener_id` is the primary key): the identifier, the `classname` string
dispatched by `ListenerFactory`, and whether `json.loads(parameters)` plus the
constructor call succeed (`paramsOk`). -/
structure ListenerRow where
  listener_id : Nat
  classname : String
  paramsOk : Bool
deriving DecidableEq

/-- The guarded construction at service.py lines 682-689:
`ListenerFactory(row.classname)(**kwargs)` yields a runtime listener for the
two known class names when the parameters are valid; any other class name or
invalid parameters raise and the row is skipped (`none`). -/
def construct (row : ListenerRow) : Option LKind :=
  if row.paramsOk then
    match row.classname with
    | "FileSystemListener" => some LKind.fs
    | "SQLListener" => some LKind.sql
    | _ => none
  else none

/-- The scheduler-facing state of `BugSignalService`: the pending jobs of the
job queue and the `__listeners` map (identifier to runtime-listener kind). -/
structure SchedState where
  jobs : List Job
  listeners : List (Nat × LKind)
deriving DecidableEq

/-- The `finally` block of service.py lines 665-672: reschedule the actualizer
job when the computed `when` value is truthy and no job named `ACTUALIZER` is
pending. -/
def armActualizer (nt : NextT) (jobs : List Job) : List Job :=
  if nt.truthy && !(jobs.any (fun j => j.name == JobName.actualizer)) then
    jobs ++ [{ name := JobName.actualizer, listenerId := none, due := nt }]
  else jobs

/-- The loop body of service.py lines 679-712 for one database row, with `old`
the pre-pass `__listeners` map and `listNext` the `next_t` pair each freshly
constructed listener's cron schedule reports: construct the listener (skip the
row when construction raises); when a previous instance of a different kind
exists, schedule an immediate `CHECKER` job for it; store the listener in the
map; then schedule the `LISTENER` job (the `if (_next_t := listener.next_t) is
not None` guard always holds, `next_t` being a pair).  `inherit` for a
same-kind previous instance mutates only the listener's own checkpoint
(`fsInherit`/`sqlInherit`), not the scheduler state. -/
def actualizeBody (old : List (Nat × LKind)) (listNext : Nat → Bool × Int)
    (acc : SchedState) (row : ListenerRow) : SchedState :=
  match construct row with
  | none => acc
  | some kind =>
    let acc1 : SchedState :=
      match alookup old row.listener_id with
      | some oldKind =>
        if oldKind == kind then acc
        else { acc with jobs := acc.jobs ++
          [{ name := JobName.checker, listenerId := some row.listener_id,
             due := NextT.interval 0 }] }
      | none => acc
    let acc2 := { acc1 with listeners := setKey acc1.listeners row.listener_id kind }
    { acc2 with jobs := acc2.jobs ++
      [{ name := JobName.listener, listenerId := some row.listener_id,
         due := NextT.cron (listNext row.listener_id) }] }

/-- `BugSignalService.__actualize` (service.py lines 654-712).  `dbResult` is
the outcome of `self.db.listeners(active_only=True)`; `retryInterval` is
`config['timeout']['retryInterval']`; `actNext` is the pair the actualizer
cron schedule reports.  On a failed read the `when` value is the retry
interval, the actualizer is re-armed in the `finally` block, and the exception
propagates with nothing else touched; on a successful read the actualizer is
re-armed with its cron pair, every pending `LISTENER` job is removed, the
listener map is rebuilt from the rows, and a `LISTENER` job is scheduled per
constructed row. -/
def actualize (retryInterval : Int) (actNext : Bool × Int)
    (listNext : Nat → Bool × Int) (dbResult : Except Unit (List ListenerRow))
    (s : SchedState) : Except Unit Unit × SchedState :=
  let nt : NextT :=
    match dbResult with
    | .error _ => .interval retryInterval
    | .ok _ => .cron actNext
  let jobs1 := armActualizer nt s.jobs
  match dbResult with
  | .error e => (.error e, { s with jobs := jobs1 })
  | .ok rows =>
    let jobs2 := jobs1.filter (fun j => !(j.name == JobName.listener))
    (.ok (), rows.foldl (actualizeBody s.listeners listNext)
      { jobs := jobs2, listeners := [] })

/-- `BugSignalService.__check_listener` (service.py lines 714-749), restricted
to its effect on the scheduler state and its outcome.  The fired one-shot job
(of name `jobName`, carrying `JobData(listenerId)`) is already out of the
queue.  If the listener id is unknown the leading assert raises with nothing
scheduled.  Otherwise `check()` runs (its outcome is `checkResult`), and the
`finally` block reschedules: a new `LISTENER` job for this listener is added
exactly when the fired job was named `LISTENER` and no job named `LISTENER` is
pending — the `(_next_t := listener.next_t)` conjunct always holds, `next_t`
being a pair — whether `check()` succeeded or raised.  `listNext` is the pair
the listener's cron schedule reports at reschedule time. -/
def checkListener (jobName : JobName) (listenerId : Nat) (listNext : Bool × Int)
    (checkResult : Except Unit (List String)) (s : SchedState) :
    Except Unit (List String) × SchedState :=
  match alookup s.listeners listenerId with
  | none => (.error (), s)
  | some _ =>
    let doReschedule := jobName == JobName.listener
      && !(s.jobs.any (fun j => j.name == JobName.listener))
    let s1 :=
      if doReschedule then
        { s with jobs := s.jobs ++
          [{ name := JobName.listener, listenerId := some listenerId,
             due := NextT.cron listNext }] }
      else s
    (checkResult, s1)

/-- Number of pending listener-check jobs for one listener identifier. -/
def countListenerJobs (jobs : List Job) (i : Nat) : Nat :=
  (jobs.filter (fun j => j.name == JobName.listener && j.listenerId == some i)).length

/-- The scheduler states reachable from service start (empty queue, empty
listener map) through reconciliation passes (direct or fired, successful or
failed reads; the rows of a successful read have pairwise distinct
`listener_id`, the listener table's primary key), listener-check firings (a
pending job carrying a listener reference is consumed and its callback runs),
and force-check one-shot scheduling. -/
inductive Reach : SchedState → Prop where
  | init : Reach { jobs := [], listeners := [] }
  | actualizeStep (s : SchedState) (hs : Reach s) (retry : Int)
      (actNext : Bool × Int) (listNext : Nat → Bool × Int)
      (dbRes : Except Unit (List ListenerRow))
      (hN : ∀ rows, dbRes = Except.ok rows →
        (rows.map ListenerRow.listener_id).Nodup) :
      Reach (actualize retry actNext listNext dbRes s).2
  | fireActualizer (s : SchedState) (hs : Reach s) (j : Job) (hj : j ∈ s.jobs)
      (hname : j.name = JobName.actualizer) (retry : Int) (actNext : Bool × Int)
      (listNext : Nat → Bool × Int) (dbRes : Except Unit (List ListenerRow))
      (hN : ∀ rows, dbRes = Except.ok rows →
        (rows.map ListenerRow.listener_id).Nodup) :
      Reach (actualize retry actNext listNext dbRes
        { s with jobs := s.jobs.erase j }).2
  | fireCheck (s : SchedState) (hs : Reach s) (j : Job) (hj : j ∈ s.jobs)
      (i : Nat) (hi : j.listenerId = some i) (nt : Bool × Int)
      (res : Except Unit (List String)) :
      Reach (checkListener j.name i nt res { s with jobs := s.jobs.erase j }).2
  | forceCheck (s : SchedState) (hs : Reach s) (i : Nat) :
      Reach { s with jobs := s.jobs ++
        [{ name := JobName.checker, listenerId := some i,
           due := NextT.interval 0 }] }

/-! ### Proof-side characterizations of the reconciliation pass -/

/-- The jobs one row contributes during a reconciliation pass. -/
def rowJobs (old : List (Nat × LKind)) (listNext : Nat → Bool × Int)
    (row : ListenerRow) : List Job :=
  match construct row with
  | none => []
  | some kind =>
    (match alookup old row.listener_id with
     | some oldKind =>
       if oldKind == kind then []
       else [{ name := JobName.checker, listenerId := some row.listener_id,
               due := NextT.interval 0 }]
     | none => []) ++
    [{ name := JobName.listener, listenerId := some row.listener_id,
       due := NextT.cron (listNext row.listener_id) }]

/-- The jobs a row list contributes during a reconciliation pass. -/
def rowsJobs (old : List (Nat × LKind)) (listNext : Nat → Bool × Int) :
    List ListenerRow → List Job
  | [] => []
  | r :: rest => rowJobs old listNext r ++ rowsJobs old listNext rest

/-- The listener map rebuilt by a reconciliation pass. -/
def refreshListeners : List ListenerRow → List (Nat × LKind) → List (Nat × LKind)
  | [], ls => ls
  | r :: rest, ls =>
    refreshListeners rest
      (match construct r with
       | none => ls
       | some k => setKey ls r.listener_id k)

/-! ## Theorems: `CronSchedule` (claim C4) -/

/-- Claim C4 (counterexample): with the strictly increasing occurrence
sequence `5·n` and the stored occurrence at index 2 (instant 10), a call at
`now = 17` reports expired and returns instant 15, which is in the past: the
schedule advances by exactly one occurrence, not to the next occurrence after
`now`, so the returned `when` is not always in the future. -/
theorem cron_next_t_past_cex :
    (cron_next_t { occ := fun n => 5 * (n : Int), idx := 2 } 17).1 = (true, 15) ∧
    (15 : Int) < 17 ∧
    StrictMono (fun n : Nat => 5 * (n : Int)) := by
  refine ⟨rfl, by norm_num, ?_⟩
  intro a b h
  dsimp only
  omega

/-- Claim C4 (amended): when the stored occurrence has elapsed, `next_t`
advances by exactly one occurrence — to the occurrence immediately following
the stored one, strictly later than it but later than `now` only when at most
one occurrence boundary has passed — and reports `expired = true`; when not
yet elapsed it returns the still-pending occurrence unchanged, which is
strictly in the future. -/
theorem cron_next_t_amended (c : CronState) (now : Int) (hmono : StrictMono c.occ) :
    (c.occ c.idx ≤ now →
      (cron_next_t c now).1 = (true, c.occ (c.idx + 1)) ∧
      (cron_next_t c now).2.idx = c.idx + 1 ∧
      c.occ c.idx < c.occ (c.idx + 1) ∧
      (now < c.occ (c.idx + 1) → now < (cron_next_t c now).1.2)) ∧
    (now < c.occ c.idx →
      cron_next_t c now = ((false, c.occ c.idx), c) ∧
      now < (cron_next_t c now).1.2) := by
  constructor
  · intro h
    refine ⟨?_, ?_, hmono (Nat.lt_succ_self c.idx), ?_⟩
    · simp [cron_next_t, if_pos h]
    · simp [cron_next_t, if_pos h]
    · intro h2
      simpa [cron_next_t, if_pos h] using h2
  · intro h
    have hn : ¬ c.occ c.idx ≤ now := not_le.mpr h
    refine ⟨?_, ?_⟩
    · simp [cron_next_t, if_neg hn]
    · simpa [cron_next_t, if_neg hn] using h

/-- Witness for `cron_next_t_amended` at a concrete schedule. -/
theorem cron_next_t_amended_witness :
    (cron_next_t { occ := fun n => 5 * (n : Int), idx := 2 } 12).1 = (true, 15) ∧
    (12 : Int) < (cron_next_t { occ := fun n => 5 * (n : Int), idx := 2 } 12).1.2 := by
  have hmono : StrictMono (fun n : Nat => 5 * (n : Int)) := by
    intro a b h
    dsimp only
    omega
  obtain ⟨h1, _h2, _h3, h4⟩ :=
    (cron_next_t_amended { occ := fun n => 5 * (n : Int), idx := 2 } 12 hmono).1 (by decide)
  exact ⟨by rw [h1]; decide, h4 (by decide)⟩

/-! ## Theorems: `SQLListener.check` (claims C5, C10, SQL half of C1) -/

/-- Claim C5: on a successful continual check returning at least one row the
checkpoint becomes exactly the maximum row timestamp; on a successful
non-continual check it becomes the wall-clock instant captured at the start of
the call, regardless of the rows. -/
theorem sql_checkpoint_advance (T now : Int) (rows : List (Int × String)) :
    (rows ≠ [] →
      (sqlCheck true (.ok rows) now { updated := T }).2.updated = maxTs rows) ∧
    (sqlCheck false (.ok rows) now { updated := T }).2.updated = now := by
  constructor
  · intro h
    cases rows with
    | nil => exact absurd rfl h
    | cons r rest => rfl
  · rfl

/-- Witness for `sql_checkpoint_advance`: checkpoint `T = 0`, rows at `T+1`
and `T+3`; continual advances to 3, non-continual to `now = 100`. -/
theorem sql_checkpoint_advance_witness :
    (sqlCheck true (.ok [(1, "a"), (3, "b")]) 100 { updated := 0 }).2.updated =
      maxTs [(1, "a"), (3, "b")] ∧
    (sqlCheck false (.ok [(1, "a"), (3, "b")]) 100 { updated := 0 }).2.updated = 100 :=
  ⟨(sql_checkpoint_advance 0 100 [(1, "a"), (3, "b")]).1 (by simp),
   (sql_checkpoint_advance 0 100 [(1, "a"), (3, "b")]).2⟩

/-- Claim C10: a successful continual check returning zero rows leaves the
checkpoint unchanged. -/
theorem sql_continual_empty_keeps_checkpoint (T now : Int) :
    sqlCheck true (.ok []) now { updated := T } = (.ok [], { updated := T }) := rfl

/-! ## Theorems: checkpoint on a raising `check()` (claim C1) -/

/-- Claim C1 (counterexample): a `FileSystemListener` whose `_state` records
`d` as a file (mtime 2) while `d` is now a directory, on a filesystem that
also contains a new file `c` processed first, raises the `Invalid state`
assertion — but the state at the moment the exception propagates already
records the created file `c`, so the checkpoint is not bit-for-bit equal to
its pre-call value. -/
theorem fs_check_raise_partial_state_cex :
    fsCheck (fun p => if p = "c" then FSEntry.file 5
        else if p = "d" then FSEntry.dir ["x"] else FSEntry.absent)
        10 ["c", "d"] { state := [("d", ItemState.fileT 2)], updated := 0 } =
      (.error (), { state := [("d", ItemState.fileT 2), ("c", ItemState.fileT 5)],
                    updated := 0 }) ∧
    ({ state := [("d", ItemState.fileT 2), ("c", ItemState.fileT 5)], updated := 0 } :
        FSState) ≠
      { state := [("d", ItemState.fileT 2)], updated := 0 } :=
  ⟨rfl, by decide⟩

/-- Claim C1 (amended): a raising `SQLListener.check` leaves the whole
checkpoint unchanged; a raising `FileSystemListener.check` leaves the
`updated` timestamp unchanged, while the per-item `_state` map may keep the
mutations made for items processed before the exception. -/
theorem check_raise_checkpoint_amended :
    (∀ (continual : Bool) (now : Int) (st : SQLState),
      sqlCheck continual (.error ()) now st = (.error (), st)) ∧
    (∀ (fs : String → FSEntry) (now : Int) (items : List String) (st : FSState),
      (fsCheck fs now items st).1 = .error () →
      (fsCheck fs now items st).2.updated = st.updated) := by
  constructor
  · intro continual now st
    rfl
  · intro fs now items st h
    unfold fsCheck at h ⊢
    rcases hloop : fsCheckLoop fs st.updated items st.state [] with ⟨r, st1⟩
    simp only [hloop] at h ⊢
    cases r with
    | ok msgs => simp at h
    | error e => rfl

/-- Witness for `check_raise_checkpoint_amended` at the raising filesystem
run of the counterexample and at a failing SQL query. -/
theorem check_raise_checkpoint_amended_witness :
    (fsCheck (fun p => if p = "c" then FSEntry.file 5
        else if p = "d" then FSEntry.dir ["x"] else FSEntry.absent)
        10 ["c", "d"] { state := [("d", ItemState.fileT 2)], updated := 0 }).2.updated = 0 ∧
    sqlCheck true (.error ()) 5 { updated := 2 } = (.error (), { updated := 2 }) :=
  ⟨check_raise_checkpoint_amended.2 _ 10 ["c", "d"]
      { state := [("d", ItemState.fileT 2)], updated := 0 } rfl,
   check_raise_checkpoint_amended.1 true 5 { updated := 2 }⟩

/-! ## Theorems: directory diff scenario (claim C9) -/

/-- Claim C9 (counterexample): the scenario run returns exactly one message
for the directory, but its wording is `created 1 file(s);` — not the
`added 1 file(s);` the claim states. -/
theorem fs_dir_message_wording_cex :
    fsCheck (fun q => if q = "p" then FSEntry.dir ["b.txt"] else FSEntry.absent)
        10 ["p"] { state := [("p", ItemState.dirC ["a.txt"])], updated := 0 } =
      (.ok ["[p]\ncreated 1 file(s);\nremoved 1 file(s);\n"],
       { state := [("p", ItemState.dirC ["b.txt"])], updated := 10 }) ∧
    "[p]\ncreated 1 file(s);\nremoved 1 file(s);\n" ≠
      "[p]\nadded 1 file(s);\nremoved 1 file(s);\n" :=
  ⟨rfl, by decide⟩

/-- Claim C9 (amended): a tracked directory whose recorded member set is
`{a}` and whose current member set is `{b}` (for distinct names) yields
exactly one message — `[p]` followed by `created 1 file(s);` and
`removed 1 file(s);` — and the recorded member set becomes the current
contents while `updated` advances to the call instant. -/
theorem fs_dir_diff_amended (p a b : String) (now T : Int) (hab : a ≠ b) :
    fsCheck (fun q => if q = p then FSEntry.dir [b] else FSEntry.absent) now [p]
        { state := [(p, ItemState.dirC [a])], updated := T } =
      (.ok [dirMessage p 1 1],
       { state := [(p, ItemState.dirC [b])], updated := now }) := by
  have hba : (b == a) = false := beq_eq_false_iff_ne.mpr (Ne.symm hab)
  have hab' : (a == b) = false := beq_eq_false_iff_ne.mpr hab
  simp [fsCheck, fsCheckLoop, alookup, setKey, List.find?, List.contains, List.elem,
    hba, hab']

/-- Witness for `fs_dir_diff_amended` at the spec's `{a.txt} → {b.txt}`
scenario; `dirMessage "p" 1 1` evaluates to the literal message. -/
theorem fs_dir_diff_amended_witness :
    fsCheck (fun q => if q = "p" then FSEntry.dir ["b.txt"] else FSEntry.absent)
        10 ["p"] { state := [("p", ItemState.dirC ["a.txt"])], updated := 0 } =
      (.ok ["[p]\ncreated 1 file(s);\nremoved 1 file(s);\n"],
       { state := [("p", ItemState.dirC ["b.txt"])], updated := 10 }) :=
  fs_dir_diff_amended "p" "a.txt" "b.txt" 10 0 (by decide)

/-! ## Theorems: `inherit` (claim C6) -/

/-- `alookup` on a non-empty association list. -/
theorem alookup_cons {α : Type} [BEq α] {β : Type} (kv : α × β) (l : List (α × β))
    (k : α) :
    alookup (kv :: l) k = if kv.1 == k then some kv.2 else alookup l k := by
  unfold alookup
  rw [List.find?_cons]
  cases h : (kv.1 == k) <;> simp [h]

/-- `alookup` after the key-preserving value replacement of
`FileSystemListener.inherit`. -/
theorem alookup_inherit_map (l lo : List (String × ItemState)) (k : String) :
    alookup (l.map (fun kv =>
      match alookup lo kv.1 with
      | some v => (kv.1, v)
      | none => kv)) k =
      match alookup l k, alookup lo k with
      | none, _ => none
      | some v, none => some v
      | some _, some w => some w := by
  induction l with
  | nil => rfl
  | cons kv rest ih =>
    cases halo : alookup lo kv.1 with
    | none =>
      simp only [List.map_cons, halo, alookup_cons]
      by_cases h : (kv.1 == k) = true
      · have hk : kv.1 = k := eq_of_beq h
        rw [if_pos h, if_pos h, ← hk, halo]
      · rw [if_neg h, if_neg h]
        exact ih
    | some w =>
      simp only [List.map_cons, halo, alookup_cons]
      by_cases h : (kv.1 == k) = true
      · have hk : kv.1 = k := eq_of_beq h
        rw [if_pos h, if_pos h, ← hk, halo]
      · rw [if_neg h, if_neg h]
        exact ih

/-- Claim C6 (amended): `inherit` copies the `updated` timestamp for both
variants; for the filesystem variant the per-item state is transferred only
on the keys the fresh instance tracks — a key present in both takes the old
instance's value, a key only in the fresh instance keeps its fresh value, and
a key only in the old instance is dropped — so the checkpoints coincide
exactly when both instances track the same key set.  For the SQL variant the
whole checkpoint (the timestamp) is copied. -/
theorem inherit_checkpoint_amended (self other : FSState) (s2 o2 : SQLState) :
    (fsInherit self other).updated = other.updated ∧
    (∀ k, alookup (fsInherit self other).state k =
      match alookup self.state k, alookup other.state k with
      | none, _ => none
      | some v, none => some v
      | some _, some w => some w) ∧
    sqlInherit s2 o2 = { updated := o2.updated } :=
  ⟨rfl, fun k => alookup_inherit_map self.state other.state k, rfl⟩

/-- Claim C6 (counterexample): a fresh filesystem instance tracking only `a`
(the filesystem lost `b` since the old instance recorded it) inherits from an
old instance whose state also records `b`; afterwards the fresh checkpoint's
state differs from the old checkpoint's state, so the checkpoints are not
equal. -/
theorem fs_inherit_not_full_copy_cex :
    fsInherit (fsInit (fun q => if q = "a" then FSEntry.file 9 else FSEntry.absent)
        ["a"] 10)
        { state := [("a", ItemState.fileT 5), ("b", ItemState.fileT 7)], updated := 3 } =
      { state := [("a", ItemState.fileT 5)], updated := 3 } ∧
    ([("a", ItemState.fileT 5)] : List (String × ItemState)) ≠
      [("a", ItemState.fileT 5), ("b", ItemState.fileT 7)] :=
  ⟨rfl, by decide⟩

/-! ## Theorems: job counting helpers -/

/-- Splitting the listener-check job count over an append. -/
theorem countListenerJobs_append (l1 l2 : List Job) (i : Nat) :
    countListenerJobs (l1 ++ l2) i = countListenerJobs l1 i + countListenerJobs l2 i := by
  simp [countListenerJobs, List.filter_append]

/-- A list without `LISTENER`-named jobs has no listener-check jobs. -/
theorem countListenerJobs_eq_zero (l : List Job) (i : Nat)
    (h : ∀ j ∈ l, ¬ j.name = JobName.listener) : countListenerJobs l i = 0 := by
  induction l with
  | nil => rfl
  | cons j rest ih =>
    have hpred : (j.name == JobName.listener && j.listenerId == some i) = false := by
      simp [h j (List.mem_cons_self j rest)]
    calc countListenerJobs (j :: rest) i = countListenerJobs rest i := by
          simp [countListenerJobs, List.filter_cons, hpred]
      _ = 0 := ih (fun j' hj' => h j' (List.mem_cons_of_mem _ hj'))

/-- Variant of `countListenerJobs_eq_zero` phrased on the Boolean `any` test
used by the code. -/
theorem countListenerJobs_any_false (l : List Job) (i : Nat)
    (h : l.any (fun j => j.name == JobName.listener) = false) :
    countListenerJobs l i = 0 :=
  countListenerJobs_eq_zero l i (fun j hj => by
    have := List.any_eq_false.mp h j hj
    simpa using this)

/-- Erasing a job never increases a listener-check job count. -/
theorem countListenerJobs_erase_le (l : List Job) (j : Job) (i : Nat) :
    countListenerJobs (l.erase j) i ≤ countListenerJobs l i :=
  (((List.erase_sublist j l).filter _).length_le)

/-- Jobs surviving the `LISTENER`-job removal of a reconciliation pass are
never listener-check jobs. -/
theorem countListenerJobs_filter_nonlistener (l : List Job) (i : Nat) :
    countListenerJobs (l.filter (fun j => !(j.name == JobName.listener))) i = 0 := by
  apply countListenerJobs_eq_zero
  intro j hj
  have h := (List.mem_filter.mp hj).2
  simpa using h

/-- Re-arming the actualizer job does not change listener-check job counts. -/
theorem countListenerJobs_armActualizer (nt : NextT) (jobs : List Job) (i : Nat) :
    countListenerJobs (armActualizer nt jobs) i = countListenerJobs jobs i := by
  unfold armActualizer
  split
  · rw [countListenerJobs_append]
    simp [countListenerJobs]
  · rfl

/-! ## Theorems: characterizing one reconciliation pass -/

/-- Job effect of one loop iteration of the reconciliation pass. -/
theorem actualizeBody_jobs (old : List (Nat × LKind)) (ln : Nat → Bool × Int)
    (acc : SchedState) (row : ListenerRow) :
    (actualizeBody old ln acc row).jobs = acc.jobs ++ rowJobs old ln row := by
  unfold actualizeBody rowJobs
  cases construct row with
  | none => simp
  | some kind =>
    cases alookup old row.listener_id with
    | none => simp
    | some oldKind =>
      by_cases h : (oldKind == kind) = true
      · simp [h]
      · simp [h]

/-- Listener-map effect of one loop iteration of the reconciliation pass. -/
theorem actualizeBody_listeners (old : List (Nat × LKind)) (ln : Nat → Bool × Int)
    (acc : SchedState) (row : ListenerRow) :
    (actualizeBody old ln acc row).listeners =
      match construct row with
      | none => acc.listeners
      | some k => setKey acc.listeners row.listener_id k := by
  unfold actualizeBody
  cases construct row with
  | none => rfl
  | some kind =>
    cases alookup old row.listener_id with
    | none => rfl
    | some oldKind =>
      by_cases h : (oldKind == kind) = true
      · simp [h]
      · simp [h]

/-- Job effect of the whole row loop of a reconciliation pass. -/
theorem foldl_body_jobs (old : List (Nat × LKind)) (ln : Nat → Bool × Int)
    (rows : List ListenerRow) :
    ∀ acc : SchedState,
      (rows.foldl (actualizeBody old ln) acc).jobs = acc.jobs ++ rowsJobs old ln rows := by
  induction rows with
  | nil => intro acc; simp [rowsJobs]
  | cons r rest ih =>
    intro acc
    rw [List.foldl_cons, ih, actualizeBody_jobs]
    simp [rowsJobs]

/-- Listener-map effect of the whole row loop of a reconciliation pass. -/
theorem foldl_body_listeners (old : List (Nat × LKind)) (ln : Nat → Bool × Int)
    (rows : List ListenerRow) :
    ∀ acc : SchedState,
      (rows.foldl (actualizeBody old ln) acc).listeners =
        refreshListeners rows acc.listeners := by
  induction rows with
  | nil => intro acc; rfl
  | cons r rest ih =>
    intro acc
    rw [List.foldl_cons, ih, refreshListeners]
    cases hc : construct r with
    | none => rw [actualizeBody_listeners, hc]
    | some k => rw [actualizeBody_listeners, hc]

/-- Jobs after a reconciliation pass with a successful configuration read. -/
theorem actualize_ok_jobs (retry : Int) (an : Bool × Int) (ln : Nat → Bool × Int)
    (rows : List ListenerRow) (s : SchedState) :
    (actualize retry an ln (.ok rows) s).2.jobs =
      (armActualizer (.cron an) s.jobs).filter (fun j => !(j.name == JobName.listener))
        ++ rowsJobs s.listeners ln rows := by
  unfold actualize
  exact foldl_body_jobs s.listeners ln rows _

/-- Listener map after a reconciliation pass with a successful read. -/
theorem actualize_ok_listeners (retry : Int) (an : Bool × Int) (ln : Nat → Bool × Int)
    (rows : List ListenerRow) (s : SchedState) :
    (actualize retry an ln (.ok rows) s).2.listeners = refreshListeners rows [] := by
  unfold actualize
  exact foldl_body_listeners s.listeners ln rows _

/-! ## Theorems: association-list lookups under `setKey` -/

/-- `alookup` on the empty association list. -/
theorem alookup_nil {α : Type} [BEq α] {β : Type} (k : α) :
    alookup ([] : List (α × β)) k = none := rfl

/-- `alookup` over an append takes the first list's binding when present. -/
theorem alookup_append {α : Type} [BEq α] {β : Type} (l1 l2 : List (α × β)) (k : α) :
    alookup (l1 ++ l2) k =
      match alookup l1 k with
      | some v => some v
      | none => alookup l2 k := by
  induction l1 with
  | nil => rfl
  | cons kv rest ih =>
    rw [List.cons_append, alookup_cons, alookup_cons]
    by_cases hk : (kv.1 == k) = true
    · rw [if_pos hk, if_pos hk]
    · rw [if_neg hk, if_neg hk, ih]

/-- A key the `any` test misses has no binding. -/
theorem alookup_eq_none_of_any_false {α : Type} [BEq α] {β : Type}
    (l : List (α × β)) (k : α) (h : l.any (fun kv => kv.1 == k) = false) :
    alookup l k = none := by
  induction l with
  | nil => rfl
  | cons kv rest ih =>
    rw [List.any_cons] at h
    obtain ⟨h1, h2⟩ := Bool.or_eq_false_iff.mp h
    rw [alookup_cons, if_neg (by simp [h1]), ih h2]

/-- `setKey` binds its key. -/
theorem alookup_setKey_self {α : Type} [BEq α] [LawfulBEq α] {β : Type}
    (l : List (α × β)) (k : α) (v : β) :
    alookup (setKey l k v) k = some v := by
  unfold setKey
  split
  case isTrue h =>
    induction l with
    | nil => simp at h
    | cons kv rest ih =>
      obtain ⟨a, b⟩ := kv
      rw [List.any_cons] at h
      rw [List.map_cons]
      by_cases hk : (a == k) = true
      · simp [alookup_cons, hk]
      · simp only [hk, Bool.false_or] at h
        simp only [if_neg hk, alookup_cons, hk]
        rw [if_neg (by simp [hk])]
        exact ih h
  case isFalse h =>
    rw [alookup_append, alookup_eq_none_of_any_false l k (Bool.eq_false_iff.mpr h)]
    simp [alookup_cons]

/-- `setKey` leaves other keys' bindings unchanged. -/
theorem alookup_setKey_ne {α : Type} [BEq α] [LawfulBEq α] {β : Type}
    (l : List (α × β)) (k k' : α) (v : β) (hne : ¬ k = k') :
    alookup (setKey l k v) k' = alookup l k' := by
  have hkk' : (k == k') = false := beq_eq_false_iff_ne.mpr hne
  unfold setKey
  split
  case isTrue h =>
    clear h
    induction l with
    | nil => rfl
    | cons kv rest ih =>
      obtain ⟨a, b⟩ := kv
      rw [List.map_cons]
      by_cases hk : (a == k) = true
      · have ha : a = k := eq_of_beq hk
        subst ha
        simp only [if_pos hk, alookup_cons, hkk']
        simp [ih]
      · simp only [if_neg hk, alookup_cons]
        by_cases hk' : ((a, b).1 == k') = true
        · rw [if_pos hk', if_pos hk']
        · rw [if_neg hk', if_neg hk', ih]
  case isFalse h =>
    rw [alookup_append]
    cases ha : alookup l k' with
    | some w => rfl
    | none => simp [alookup_cons, alookup_nil, hkk']

/-! ## Theorems: the rebuilt listener map -/

/-- Identifiers outside the rows are untouched by the rebuild loop. -/
theorem refreshListeners_lookup_notin (rows : List ListenerRow) (i : Nat)
    (h : ∀ r ∈ rows, ¬ r.listener_id = i) :
    ∀ ls, alookup (refreshListeners rows ls) i = alookup ls i := by
  induction rows with
  | nil => intro ls; rfl
  | cons r rest ih =>
    intro ls
    have hr : ¬ r.listener_id = i := h r (List.mem_cons_self r rest)
    have ih' := ih (fun r' hr' => h r' (List.mem_cons_of_mem _ hr'))
    simp only [refreshListeners]
    cases hc : construct r with
    | none => exact ih' ls
    | some k =>
      rw [ih' (setKey ls r.listener_id k)]
      exact alookup_setKey_ne ls r.listener_id i k hr

/-- The rebuilt map binds each row's identifier to its constructed kind, and
drops identifiers of rows whose construction failed. -/
theorem refreshListeners_lookup_mem (rows : List ListenerRow) (row : ListenerRow) :
    (rows.map ListenerRow.listener_id).Nodup → row ∈ rows →
    ∀ ls, alookup (refreshListeners rows ls) row.listener_id =
      match construct row with
      | none => alookup ls row.listener_id
      | some k => some k := by
  induction rows with
  | nil => intro _ h; cases h
  | cons r rest ih =>
    intro hN hrow ls
    have hN' : (∀ x ∈ rest, ¬ x.listener_id = r.listener_id) ∧
        (rest.map ListenerRow.listener_id).Nodup := by simpa using hN
    simp only [refreshListeners]
    rcases List.mem_cons.mp hrow with he | ht
    · subst he
      have hni : ∀ r' ∈ rest, ¬ r'.listener_id = row.listener_id :=
        fun r' hr' => hN'.1 r' hr'
      rw [refreshListeners_lookup_notin rest row.listener_id hni]
      cases hc : construct row with
      | none => simp only [hc]
      | some k =>
        simp only [hc]
        exact alookup_setKey_self ls row.listener_id k
    · have hrne : ¬ r.listener_id = row.listener_id := fun he2 =>
        hN'.1 row ht he2.symm
      have ih' := ih hN'.2 ht
      cases hc : construct r with
      | none => exact ih' ls
      | some k =>
        rw [ih' (setKey ls r.listener_id k)]
        cases hc2 : construct row with
        | none =>
          simp only [hc2]
          exact alookup_setKey_ne ls r.listener_id row.listener_id k hrne
        | some k2 => simp only [hc2]

/-! ## Theorems: listener-check job counts of one pass -/

/-- A single job contributes at most one listener-check job. -/
theorem countListenerJobs_single_le (j : Job) (i : Nat) :
    countListenerJobs [j] i ≤ 1 := by
  cases h : (j.name == JobName.listener && j.listenerId == some i) <;>
    simp [countListenerJobs, List.filter_cons, h]

/-- Jobs all referencing other listeners contribute no listener-check job for
this identifier. -/
theorem countListenerJobs_eq_zero_of_id (l : List Job) (i : Nat)
    (h : ∀ j ∈ l, ¬ j.listenerId = some i) : countListenerJobs l i = 0 := by
  induction l with
  | nil => rfl
  | cons j rest ih =>
    have hpred : (j.name == JobName.listener && j.listenerId == some i) = false := by
      simp [h j (List.mem_cons_self j rest)]
    calc countListenerJobs (j :: rest) i = countListenerJobs rest i := by
          simp [countListenerJobs, List.filter_cons, hpred]
      _ = 0 := ih (fun j' hj' => h j' (List.mem_cons_of_mem _ hj'))

/-- A row's contributed jobs hold at most one listener-check job. -/
theorem countListenerJobs_rowJobs_le_one (old : List (Nat × LKind))
    (ln : Nat → Bool × Int) (row : ListenerRow) (i : Nat) :
    countListenerJobs (rowJobs old ln row) i ≤ 1 := by
  unfold rowJobs
  cases construct row with
  | none => simp [countListenerJobs]
  | some kind =>
    cases alookup old row.listener_id with
    | none =>
      dsimp only
      simpa using countListenerJobs_single_le
        { name := JobName.listener, listenerId := some row.listener_id,
          due := NextT.cron (ln row.listener_id) } i
    | some oldKind =>
      dsimp only
      by_cases h : (oldKind == kind) = true
      · rw [if_pos h, List.nil_append]
        exact countListenerJobs_single_le _ i
      · rw [if_neg h, List.singleton_append]
        have hsplit : countListenerJobs
            ({ name := JobName.checker, listenerId := some row.listener_id,
               due := NextT.interval 0 } ::
             [{ name := JobName.listener, listenerId := some row.listener_id,
                due := NextT.cron (ln row.listener_id) }]) i =
            countListenerJobs
              [{ name := JobName.listener, listenerId := some row.listener_id,
                 due := NextT.cron (ln row.listener_id) }] i := by
          simp [countListenerJobs, List.filter_cons]
        rw [hsplit]
        exact countListenerJobs_single_le _ i

/-- A row for a different identifier contributes no listener-check job for
this one. -/
theorem countListenerJobs_rowJobs_ne (old : List (Nat × LKind))
    (ln : Nat → Bool × Int) (row : ListenerRow) (i : Nat)
    (h : ¬ row.listener_id = i) :
    countListenerJobs (rowJobs old ln row) i = 0 := by
  apply countListenerJobs_eq_zero_of_id
  intro j hj
  unfold rowJobs at hj
  cases hc : construct row with
  | none => simp [hc] at hj
  | some kind =>
    cases ho : alookup old row.listener_id with
    | none =>
      simp [hc, ho] at hj
      simp [hj, h]
    | some oldKind =>
      by_cases hk : (oldKind == kind) = true
      · simp [hc, ho, hk] at hj
        simp [hj, h]
      · simp [hc, ho, hk] at hj
        rcases hj with hj | hj <;> simp [hj, h]

/-- Rows all for other identifiers contribute no listener-check job for this
one. -/
theorem countListenerJobs_rowsJobs_zero (old : List (Nat × LKind))
    (ln : Nat → Bool × Int) (rows : List ListenerRow) (i : Nat)
    (h : ∀ r ∈ rows, ¬ r.listener_id = i) :
    countListenerJobs (rowsJobs old ln rows) i = 0 := by
  induction rows with
  | nil => rfl
  | cons r rest ih =>
    simp only [rowsJobs]
    rw [countListenerJobs_append,
      countListenerJobs_rowJobs_ne old ln r i (h r (List.mem_cons_self r rest)),
      ih (fun r' hr' => h r' (List.mem_cons_of_mem _ hr'))]

/-- With pairwise distinct row identifiers a pass contributes at most one
listener-check job per identifier. -/
theorem countListenerJobs_rowsJobs_le_one (old : List (Nat × LKind))
    (ln : Nat → Bool × Int) (rows : List ListenerRow) (i : Nat)
    (hN : (rows.map ListenerRow.listener_id).Nodup) :
    countListenerJobs (rowsJobs old ln rows) i ≤ 1 := by
  induction rows with
  | nil => simp [rowsJobs, countListenerJobs]
  | cons r rest ih =>
    have hN' : (∀ x ∈ rest, ¬ x.listener_id = r.listener_id) ∧
        (rest.map ListenerRow.listener_id).Nodup := by simpa using hN
    simp only [rowsJobs]
    rw [countListenerJobs_append]
    by_cases hi : r.listener_id = i
    · have h0 : countListenerJobs (rowsJobs old ln rest) i = 0 :=
        countListenerJobs_rowsJobs_zero old ln rest i
          (fun r' hr' he => hN'.1 r' hr' (he.trans hi.symm))
      rw [h0]
      simpa using countListenerJobs_rowJobs_le_one old ln r i
    · rw [countListenerJobs_rowJobs_ne old ln r i hi, Nat.zero_add]
      exact ih hN'.2

/-- The exact per-identifier contribution of a pass for a row it contains. -/
theorem countListenerJobs_rowJobs_self (old : List (Nat × LKind))
    (ln : Nat → Bool × Int) (row : ListenerRow) :
    countListenerJobs (rowJobs old ln row) row.listener_id =
      match construct row with
      | none => 0
      | some _ => 1 := by
  unfold rowJobs
  cases construct row with
  | none => rfl
  | some kind =>
    cases alookup old row.listener_id with
    | none => simp [countListenerJobs, List.filter_cons]
    | some oldKind =>
      by_cases h : (oldKind == kind) = true
      · simp [h, countListenerJobs, List.filter_cons]
      · simp [h, countListenerJobs, List.filter_cons]

/-- The per-identifier job contribution of a whole pass, for a member row,
under distinct identifiers. -/
theorem countListenerJobs_rowsJobs_mem (old : List (Nat × LKind))
    (ln : Nat → Bool × Int) (rows : List ListenerRow) (row : ListenerRow) :
    (rows.map ListenerRow.listener_id).Nodup → row ∈ rows →
    countListenerJobs (rowsJobs old ln rows) row.listener_id =
      match construct row with
      | none => 0
      | some _ => 1 := by
  induction rows with
  | nil => intro _ h; cases h
  | cons r rest ih =>
    intro hN hrow
    have hN' : (∀ x ∈ rest, ¬ x.listener_id = r.listener_id) ∧
        (rest.map ListenerRow.listener_id).Nodup := by simpa using hN
    simp only [rowsJobs]
    rw [countListenerJobs_append]
    rcases List.mem_cons.mp hrow with he | ht
    · subst he
      rw [countListenerJobs_rowsJobs_zero old ln rest row.listener_id
          (fun r' hr' => hN'.1 r' hr'), Nat.add_zero]
      exact countListenerJobs_rowJobs_self old ln row
    · rw [countListenerJobs_rowJobs_ne old ln r row.listener_id
          (fun he => hN'.1 row ht he.symm), Nat.zero_add]
      exact ih hN'.2 ht

/-! ## Theorems: invariant preservation of the two service operations -/

/-- A reconciliation pass preserves the at-most-one listener-check-job
invariant (the successful case establishes it outright from the distinct row
identifiers; the failing case leaves listener-check jobs untouched). -/
theorem actualize_count_le (retry : Int) (an : Bool × Int) (ln : Nat → Bool × Int)
    (dbRes : Except Unit (List ListenerRow)) (s : SchedState)
    (hN : ∀ rows, dbRes = Except.ok rows → (rows.map ListenerRow.listener_id).Nodup)
    (hInv : ∀ i, countListenerJobs s.jobs i ≤ 1) :
    ∀ i, countListenerJobs (actualize retry an ln dbRes s).2.jobs i ≤ 1 := by
  intro i
  cases dbRes with
  | error e =>
    have hjobs : (actualize retry an ln (.error e) s).2.jobs
        = armActualizer (NextT.interval retry) s.jobs := rfl
    rw [hjobs, countListenerJobs_armActualizer]
    exact hInv i
  | ok rows =>
    rw [actualize_ok_jobs, countListenerJobs_append,
      countListenerJobs_filter_nonlistener]
    simpa using countListenerJobs_rowsJobs_le_one s.listeners ln rows i (hN rows rfl)

/-- The jobs left by a listener-check firing: the new `LISTENER` job is added
exactly when the listener is known, the fired job was named `LISTENER`, and no
`LISTENER`-named job is pending. -/
theorem checkListener_jobs (jn : JobName) (li : Nat) (nt : Bool × Int)
    (res : Except Unit (List String)) (s : SchedState) :
    (checkListener jn li nt res s).2.jobs =
      if ((alookup s.listeners li).isSome && (jn == JobName.listener)
          && !(s.jobs.any (fun j => j.name == JobName.listener))) = true then
        s.jobs ++ [{ name := JobName.listener, listenerId := some li,
                     due := NextT.cron nt }]
      else s.jobs := by
  unfold checkListener
  cases alookup s.listeners li with
  | none => simp
  | some k =>
    by_cases hd : ((jn == JobName.listener)
        && !(s.jobs.any (fun j => j.name == JobName.listener))) = true
    · simp [hd]
    · simp [hd]

/-- A listener-check firing preserves the at-most-one listener-check-job
invariant. -/
theorem checkListener_count_le (jn : JobName) (li : Nat) (nt : Bool × Int)
    (res : Except Unit (List String)) (s : SchedState)
    (hInv : ∀ i, countListenerJobs s.jobs i ≤ 1) :
    ∀ i, countListenerJobs (checkListener jn li nt res s).2.jobs i ≤ 1 := by
  intro i
  rw [checkListener_jobs]
  split
  case isTrue h =>
    have hany : s.jobs.any (fun j => j.name == JobName.listener) = false := by
      rw [Bool.and_eq_true] at h
      simpa using h.2
    rw [countListenerJobs_append, countListenerJobs_any_false s.jobs i hany]
    simpa using countListenerJobs_single_le
      { name := JobName.listener, listenerId := some li, due := NextT.cron nt } i
  case isFalse h => exact hInv i

/-! ## Theorems: failed reconciliation re-arm (claim C7) -/

/-- Claim C7: when the configuration read fails, the pass re-arms the
actualizer — when no actualizer job is pending — at the fixed retry interval
(not the cron pair), leaves the listener map and the pending listener-check
jobs untouched, and propagates the failure.  A non-zero retry interval is
assumed (the configured `retryInterval`; the code's truthiness guard skips
the re-arm for a zero interval). -/
theorem actualize_failure_rearm (s : SchedState) (retry : Int) (an : Bool × Int)
    (ln : Nat → Bool × Int) (hr : ¬ retry = 0) :
    (actualize retry an ln (.error ()) s).1 = .error () ∧
    (actualize retry an ln (.error ()) s).2.listeners = s.listeners ∧
    (actualize retry an ln (.error ()) s).2.jobs.filter
        (fun j => j.name == JobName.listener) =
      s.jobs.filter (fun j => j.name == JobName.listener) ∧
    (s.jobs.any (fun j => j.name == JobName.actualizer) = false →
      (actualize retry an ln (.error ()) s).2.jobs =
        s.jobs ++ [{ name := JobName.actualizer, listenerId := none,
                     due := NextT.interval retry }]) ∧
    (s.jobs.any (fun j => j.name == JobName.actualizer) = true →
      (actualize retry an ln (.error ()) s).2.jobs = s.jobs) := by
  have hjobs : (actualize retry an ln (.error ()) s).2.jobs
      = armActualizer (NextT.interval retry) s.jobs := rfl
  have ht : (NextT.interval retry).truthy = true := by
    simp [NextT.truthy, hr]
  refine ⟨rfl, rfl, ?_, ?_, ?_⟩
  · rw [hjobs]
    unfold armActualizer
    split
    · rw [List.filter_append]
      simp
    · rfl
  · intro hany
    rw [hjobs]
    unfold armActualizer
    simp [ht, hany]
  · intro hany
    rw [hjobs]
    unfold armActualizer
    simp [hany]

/-- Witness for `actualize_failure_rearm`: a failing read on the initial
state re-arms the actualizer at the retry interval and reports the error. -/
theorem actualize_failure_rearm_witness :
    (actualize 15 (true, 100) (fun _ => (true, 7)) (.error ())
        { jobs := [], listeners := [] }).2.jobs =
      [{ name := JobName.actualizer, listenerId := none,
         due := NextT.interval 15 }] ∧
    (actualize 15 (true, 100) (fun _ => (true, 7)) (.error ())
        { jobs := [], listeners := [] }).1 = .error () := by
  have h := actualize_failure_rearm { jobs := [], listeners := [] } 15 (true, 100)
    (fun _ => (true, 7)) (by decide)
  exact ⟨h.2.2.2.1 rfl, h.1⟩

/-! ## Theorems: rescheduling after a fired check (claim C2) -/

/-- Claim C2 (counterexample): listener 1's scheduled check fires while a
listener-check job for listener 2 — and none for listener 1 — is pending;
although its cron schedule reports a next occurrence (`next_t` is always a
pair) and no duplicate job for listener 1 exists, the code's guard sees the
pending `LISTENER`-named job of listener 2 and does not reschedule listener 1:
afterwards no listener-check job for listener 1 is pending. -/
theorem check_listener_no_reschedule_cex :
    countListenerJobs
      [{ name := JobName.listener, listenerId := some 2,
         due := NextT.interval 0 }] 1 = 0 ∧
    (checkListener JobName.listener 1 (true, 50) (.ok [])
        { jobs := [{ name := JobName.listener, listenerId := some 2,
                     due := NextT.interval 0 }],
          listeners := [(1, LKind.fs), (2, LKind.fs)] }).2.jobs =
      [{ name := JobName.listener, listenerId := some 2,
         due := NextT.interval 0 }] ∧
    countListenerJobs
      (checkListener JobName.listener 1 (true, 50) (.ok [])
        { jobs := [{ name := JobName.listener, listenerId := some 2,
                     due := NextT.interval 0 }],
          listeners := [(1, LKind.fs), (2, LKind.fs)] }).2.jobs 1 = 0 :=
  ⟨rfl, rfl, rfl⟩

/-- Claim C2 (amended): when a scheduled listener-check job (named `LISTENER`)
fires for a known listener and no `LISTENER`-named job for any listener is
pending, the listener is rescheduled at the pair its cron schedule reports —
whether `check()` returned normally or raised (the outcome is passed through
unchanged). -/
theorem check_listener_reschedule_amended (s : SchedState) (i : Nat) (k : LKind)
    (nt : Bool × Int) (res : Except Unit (List String))
    (hl : alookup s.listeners i = some k)
    (hno : s.jobs.any (fun j => j.name == JobName.listener) = false) :
    (checkListener JobName.listener i nt res s).2.jobs =
      s.jobs ++ [{ name := JobName.listener, listenerId := some i,
                   due := NextT.cron nt }] ∧
    (checkListener JobName.listener i nt res s).1 = res := by
  constructor
  · rw [checkListener_jobs, if_pos (by simp [hl, hno])]
  · unfold checkListener
    rw [hl]

/-- Witness for `check_listener_reschedule_amended`: with an empty queue the
fired check of listener 1 reschedules it even though `check()` raised. -/
theorem check_listener_reschedule_amended_witness :
    (checkListener JobName.listener 1 (true, 50) (.error ())
        { jobs := [], listeners := [(1, LKind.fs)] }).2.jobs =
      [{ name := JobName.listener, listenerId := some 1,
         due := NextT.cron (true, 50) }] ∧
    (checkListener JobName.listener 1 (true, 50) (.error ())
        { jobs := [], listeners := [(1, LKind.fs)] }).1 = .error () :=
  check_listener_reschedule_amended { jobs := [], listeners := [(1, LKind.fs)] }
    1 LKind.fs (true, 50) (.error ()) rfl rfl

/-! ## Theorems: the scheduler invariant (claim C3) -/

/-- Claim C3: in every reachable scheduler state there is at most one pending
listener-check (`LISTENER`-named) job per listener identifier; in particular a
reconciliation pass rebuilds at most one such job per identifier, and the
add-after-consume rescheduling of a fired check keeps the bound. -/
theorem listener_job_at_most_one (s : SchedState) (hs : Reach s) :
    ∀ i, countListenerJobs s.jobs i ≤ 1 := by
  induction hs with
  | init =>
    intro i
    simp [countListenerJobs]
  | actualizeStep s hs retry an ln dbRes hN ih =>
    exact actualize_count_le retry an ln dbRes s hN ih
  | fireActualizer s hs j hj hname retry an ln dbRes hN ih =>
    exact actualize_count_le retry an ln dbRes _ hN
      (fun i' => le_trans (countListenerJobs_erase_le s.jobs j i') (ih i'))
  | fireCheck s hs j hj i hi nt res ih =>
    exact checkListener_count_le _ _ _ _ _
      (fun i' => le_trans (countListenerJobs_erase_le s.jobs j i') (ih i'))
  | forceCheck s hs i ih =>
    intro i'
    rw [countListenerJobs_append]
    have hc : countListenerJobs
        [{ name := JobName.checker, listenerId := some i,
           due := NextT.interval 0 }] i' = 0 := rfl
    rw [hc, Nat.add_zero]
    exact ih i'

/-- Witness for `listener_job_at_most_one` on the state reached by one
successful reconciliation pass over two distinct rows. -/
theorem listener_job_at_most_one_witness :
    countListenerJobs
      (actualize 15 (true, 100) (fun _ => (true, 7))
        (.ok [{ listener_id := 1, classname := "FileSystemListener", paramsOk := true },
              { listener_id := 2, classname := "SQLListener", paramsOk := true }])
        { jobs := [], listeners := [] }).2.jobs 1 ≤ 1 :=
  listener_job_at_most_one _
    (Reach.actualizeStep { jobs := [], listeners := [] } Reach.init 15 (true, 100)
      (fun _ => (true, 7))
      (.ok [{ listener_id := 1, classname := "FileSystemListener", paramsOk := true },
            { listener_id := 2, classname := "SQLListener", paramsOk := true }])
      (fun rows h => by
        injection h with h2
        rw [← h2]
        decide)) 1

/-! ## Theorems: skipping a failed construction (claim C8) -/

/-- Claim C8: on a successful reconciliation pass with pairwise distinct row
identifiers, a row whose construction raises is skipped — afterwards its
identifier is absent from the listener map and has no listener-check job —
while every row whose construction succeeds is stored in the map with its
kind and has exactly one listener-check job; the pass itself completes
normally. -/
theorem actualize_skip_failed_row (s : SchedState) (retry : Int) (an : Bool × Int)
    (ln : Nat → Bool × Int) (rows : List ListenerRow)
    (hN : (rows.map ListenerRow.listener_id).Nodup) :
    (actualize retry an ln (.ok rows) s).1 = .ok () ∧
    ∀ row ∈ rows,
      (construct row = none →
        alookup (actualize retry an ln (.ok rows) s).2.listeners row.listener_id
          = none ∧
        countListenerJobs (actualize retry an ln (.ok rows) s).2.jobs
          row.listener_id = 0) ∧
      (∀ k, construct row = some k →
        alookup (actualize retry an ln (.ok rows) s).2.listeners row.listener_id
          = some k ∧
        countListenerJobs (actualize retry an ln (.ok rows) s).2.jobs
          row.listener_id = 1) := by
  refine ⟨rfl, ?_⟩
  intro row hrow
  have hlook := refreshListeners_lookup_mem rows row hN hrow []
  have hcount := countListenerJobs_rowsJobs_mem s.listeners ln rows row hN hrow
  constructor
  · intro hc
    rw [hc] at hlook hcount
    constructor
    · rw [actualize_ok_listeners]
      exact hlook
    · rw [actualize_ok_jobs, countListenerJobs_append,
        countListenerJobs_filter_nonlistener, hcount]
      rfl
  · intro k hc
    rw [hc] at hlook hcount
    constructor
    · rw [actualize_ok_listeners]
      exact hlook
    · rw [actualize_ok_jobs, countListenerJobs_append,
        countListenerJobs_filter_nonlistener, hcount]
      rfl

/-- Witness for `actualize_skip_failed_row`: among three rows the middle one
has an unknown class name; it is skipped while the other two are constructed
and scheduled. -/
theorem actualize_skip_failed_row_witness :
    alookup (actualize 15 (true, 100) (fun _ => (true, 7))
      (.ok [{ listener_id := 1, classname := "FileSystemListener", paramsOk := true },
            { listener_id := 2, classname := "Bogus", paramsOk := true },
            { listener_id := 3, classname := "SQLListener", paramsOk := true }])
      { jobs := [], listeners := [] }).2.listeners 2 = none ∧
    countListenerJobs (actualize 15 (true, 100) (fun _ => (true, 7))
      (.ok [{ listener_id := 1, classname := "FileSystemListener", paramsOk := true },
            { listener_id := 2, classname := "Bogus", paramsOk := true },
            { listener_id := 3, classname := "SQLListener", paramsOk := true }])
      { jobs := [], listeners := [] }).2.jobs 2 = 0 ∧
    alookup (actualize 15 (true, 100) (fun _ => (true, 7))
      (.ok [{ listener_id := 1, classname := "FileSystemListener", paramsOk := true },
            { listener_id := 2, classname := "Bogus", paramsOk := true },
            { listener_id := 3, classname := "SQLListener", paramsOk := true }])
      { jobs := [], listeners := [] }).2.listeners 3 = some LKind.sql ∧
    countListenerJobs (actualize 15 (true, 100) (fun _ => (true, 7))
      (.ok [{ listener_id := 1, classname := "FileSystemListener", paramsOk := true },
            { listener_id := 2, classname := "Bogus", paramsOk := true },
            { listener_id := 3, classname := "SQLListener", paramsOk := true }])
      { jobs := [], listeners := [] }).2.jobs 3 = 1 := by
  have h := actualize_skip_failed_row { jobs := [], listeners := [] } 15 (true, 100)
    (fun _ => (true, 7))
    [{ listener_id := 1, classname := "FileSystemListener", paramsOk := true },
     { listener_id := 2, classname := "Bogus", paramsOk := true },
     { listener_id := 3, classname := "SQLListener", paramsOk := true }]
    (by decide)
  have h2 := h.2 { listener_id := 2, classname := "Bogus", paramsOk := true }
    (by simp)
  have h3 := h.2 { listener_id := 3, classname := "SQLListener", paramsOk := true }
    (by simp)
  exact ⟨(h2.1 rfl).1, (h2.1 rfl).2, (h3.2 LKind.sql rfl).1, (h3.2 LKind.sql rfl).2⟩
